import Mathlib

/-
Verification of the mail retrieval and attachment-extraction pipeline of the
ytfcs-ats-email-server repository, shallowly embedded in Lean.

The embedding follows src/services/firebaseService.js (the emailService
revisions it contains: setupImapConnection, listEmails with its attachment
`traverse`, downloadEmailAttachment with `findAttachment` and the boundary /
regex extraction methods, parseCandidateFromEmail, addCandidateFromEmail,
isJobRelatedEmail) and src/api/parse-resume.js (extractTextWithPdfParse,
extractTextFromPDF, extractTextFromDOCX, the /parse-attachment dispatch).
JavaScript strings are Lean Strings, JS numbers are Nat where only
non-negative integers occur, undefined/missing values are Option, and the
external IMAP / Firestore / library effects are made explicit inputs.
-/

namespace ATS

/-- ASCII whitespace as matched by the JS `\s` class and `trim()` on the
inputs this pipeline handles (space, tab, LF, VT, FF, CR). -/
def isJsWs (c : Char) : Bool :=
  c == ' ' || c == '\t' || c == '\n' || c == '\x0b' || c == '\x0c' || c == '\r'

/-- `String.toLowerCase()` on the ASCII range (`Char.toLower` lowers A-Z). -/
def lowerAscii (s : String) : String :=
  String.mk (s.data.map Char.toLower)

/-- Whether the first list is an initial segment of the second. -/
def startsWithList : List Char → List Char → Bool
  | [], _ => true
  | _ :: _, [] => false
  | p :: ps, c :: cs => p == c && startsWithList ps cs

/-- Whether `pat` occurs contiguously anywhere in the second list. -/
def hasSubList (pat : List Char) : List Char → Bool
  | [] => startsWithList pat []
  | c :: cs => startsWithList pat (c :: cs) || hasSubList pat cs

/-- JS `String.includes(pat)`. -/
def containsSubstr (s pat : String) : Bool :=
  hasSubList pat.data s.data

/-- JS `String.endsWith(suf)`. -/
def endsWithSuf (s suf : String) : Bool :=
  startsWithList suf.data.reverse s.data.reverse

/-- Numeric value of a decimal digit character (as `parseInt` consumes it). -/
def digitVal (c : Char) : Nat := c.toNat - 48

/-- `parseInt(digits, 10)` on a string of decimal digit characters. -/
def charsToNat (l : List Char) : Nat :=
  l.foldl (fun acc c => 10 * acc + digitVal c) 0

/-- Decimal digit characters of `n`, most significant first (fuel-driven so
that it is structurally recursive; the fuel is always taken to be `n`). -/
def natDigitsAux : Nat → Nat → List Char
  | 0, _ => []
  | fuel + 1, n =>
    if n = 0 then [] else natDigitsAux fuel (n / 10) ++ [Nat.digitChar (n % 10)]

/-- Characters of the decimal rendering of `n`, as JS template-string
interpolation renders a non-negative number. -/
def natStrChars (n : Nat) : List Char :=
  if n = 0 then ['0'] else natDigitsAux n n

/-- Decimal rendering of `n`, as `${n}` renders it in JS. -/
def natStr (n : Nat) : String := String.mk (natStrChars n)

theorem digitVal_digitChar {d : Nat} (h : d < 10) :
    digitVal (Nat.digitChar d) = d := by
  interval_cases d <;> rfl

theorem isDigit_digitChar {d : Nat} (h : d < 10) :
    (Nat.digitChar d).isDigit = true := by
  interval_cases d <;> rfl

theorem natDigitsAux_foldl (fuel : Nat) : ∀ n a, n ≤ fuel →
    (natDigitsAux fuel n).foldl (fun acc c => 10 * acc + digitVal c) a =
      a * 10 ^ (natDigitsAux fuel n).length + n := by
  induction fuel with
  | zero =>
    intro n a h
    have h0 : n = 0 := by omega
    subst h0
    simp [natDigitsAux]
  | succ fuel ih =>
    intro n a h
    by_cases h0 : n = 0
    · subst h0; simp [natDigitsAux]
    · rw [natDigitsAux, if_neg h0]
      have hdiv : n / 10 < n := Nat.div_lt_self (Nat.pos_of_ne_zero h0) (by omega)
      rw [List.foldl_append, ih (n / 10) a (by omega)]
      simp only [List.foldl_cons, List.foldl_nil, List.length_append,
        List.length_cons, List.length_nil]
      rw [digitVal_digitChar (Nat.mod_lt n (by omega))]
      have hp : a * 10 ^ ((natDigitsAux fuel (n / 10)).length + (0 + 1))
          = a * 10 ^ (natDigitsAux fuel (n / 10)).length * 10 := by
        ring
      rw [hp]
      generalize a * 10 ^ (natDigitsAux fuel (n / 10)).length = M
      omega

theorem natDigitsAux_isDigit (fuel : Nat) : ∀ n c, c ∈ natDigitsAux fuel n →
    c.isDigit = true := by
  induction fuel with
  | zero => intro n c hc; simp [natDigitsAux] at hc
  | succ fuel ih =>
    intro n c hc
    rw [natDigitsAux] at hc
    by_cases h0 : n = 0
    · rw [if_pos h0] at hc; simp at hc
    · rw [if_neg h0] at hc
      rcases List.mem_append.mp hc with h | h
      · exact ih _ _ h
      · simp only [List.mem_singleton] at h
        subst h
        exact isDigit_digitChar (Nat.mod_lt n (by omega))

theorem natStrChars_isDigit {n : Nat} {c : Char} (hc : c ∈ natStrChars n) :
    c.isDigit = true := by
  unfold natStrChars at hc
  by_cases h0 : n = 0
  · rw [if_pos h0] at hc
    simp only [List.mem_singleton] at hc
    subst hc; rfl
  · rw [if_neg h0] at hc
    exact natDigitsAux_isDigit n n c hc

theorem natDigitsAux_ne_nil {fuel n : Nat} (h0 : 0 < n) (h : n ≤ fuel) :
    natDigitsAux fuel n ≠ [] := by
  cases fuel with
  | zero => omega
  | succ fuel =>
    rw [natDigitsAux, if_neg (by omega)]
    simp

theorem natStrChars_ne_nil (n : Nat) : natStrChars n ≠ [] := by
  unfold natStrChars
  by_cases h0 : n = 0
  · rw [if_pos h0]; simp
  · rw [if_neg h0]
    exact natDigitsAux_ne_nil (Nat.pos_of_ne_zero h0) (le_refl n)

theorem charsToNat_natStrChars (n : Nat) : charsToNat (natStrChars n) = n := by
  unfold natStrChars charsToNat
  by_cases h0 : n = 0
  · rw [if_pos h0]; subst h0; rfl
  · rw [if_neg h0, natDigitsAux_foldl n n 0 (le_refl n)]
    simp

theorem takeWhile_append_all {p : Char → Bool} :
    ∀ {l1 l2 : List Char}, (∀ c ∈ l1, p c = true) →
      (l1 ++ l2).takeWhile p = l1 ++ l2.takeWhile p := by
  intro l1
  induction l1 with
  | nil => intro l2 _; simp
  | cons a t ih =>
    intro l2 h
    have ha : p a = true := h a (List.mem_cons_self a t)
    simp only [List.cons_append, List.takeWhile_cons, ha, if_true]
    rw [ih (fun c hc => h c (List.mem_cons_of_mem a hc))]

theorem dropWhile_append_all {p : Char → Bool} :
    ∀ {l1 l2 : List Char}, (∀ c ∈ l1, p c = true) →
      (l1 ++ l2).dropWhile p = l2.dropWhile p := by
  intro l1
  induction l1 with
  | nil => intro l2 _; simp
  | cons a t ih =>
    intro l2 h
    have ha : p a = true := h a (List.mem_cons_self a t)
    simp only [List.cons_append, List.dropWhile_cons, ha, if_true]
    exact ih (fun c hc => h c (List.mem_cons_of_mem a hc))

theorem takeWhile_all {p : Char → Bool} {l : List Char}
    (h : ∀ c ∈ l, p c = true) : l.takeWhile p = l := by
  have h2 := @takeWhile_append_all p l [] h
  simpa using h2

theorem isEmpty_eq_false_of_ne_nil {l : List Char} (h : l ≠ []) :
    l.isEmpty = false := by
  cases l with
  | nil => exact absurd rfl h
  | cons a t => rfl

/-- The composite attachment id `att-${uid}-${ordinal}` built by the lister. -/
def mkAttachmentId (uid ordinal : Nat) : String :=
  "att-" ++ natStr uid ++ "-" ++ natStr ordinal

/-- One attempted match of the JS regex `att-(\d+)-(\d+)` at the head of the
character list, returning the two `parseInt`ed capture groups.  `\d+` is
greedy and the following literal `-` is not a digit, so the groups are the
maximal nonempty digit runs. -/
def matchAttAt : List Char → Option (Nat × Nat)
  | 'a' :: 't' :: 't' :: '-' :: rest =>
    let d1 := rest.takeWhile Char.isDigit
    let r1 := rest.dropWhile Char.isDigit
    if d1.isEmpty then none
    else
      match r1 with
      | '-' :: r2 =>
        let d2 := r2.takeWhile Char.isDigit
        if d2.isEmpty then none else some (charsToNat d1, charsToNat d2)
      | _ => none
  | _ => none

/-- Leftmost unanchored search of `att-(\d+)-(\d+)`, as
`attachmentId.match(/att-(\d+)-(\d+)/)` performs it. -/
def searchAtt : List Char → Option (Nat × Nat)
  | [] => none
  | c :: cs =>
    match matchAttAt (c :: cs) with
    | some r => some r
    | none => searchAtt cs

/-- Parsing of the attachment id in downloadEmailAttachment:
`attachmentId.match(/att-(\d+)-(\d+)/)` followed by `parseInt` of the two
groups.  `none` models a failed match (`attachmentMatch` null). -/
def parseAttachmentId (s : String) : Option (Nat × Nat) :=
  searchAtt s.data

theorem matchAttAt_mk (uid k : Nat) :
    matchAttAt ('a' :: 't' :: 't' :: '-' ::
      (natStrChars uid ++ '-' :: natStrChars k)) = some (uid, k) := by
  have hdig : ∀ c ∈ natStrChars uid, Char.isDigit c = true := by
    intro c hc; exact natStrChars_isDigit hc
  have hdigk : ∀ c ∈ natStrChars k, Char.isDigit c = true := by
    intro c hc; exact natStrChars_isDigit hc
  have htake : (natStrChars uid ++ '-' :: natStrChars k).takeWhile Char.isDigit
      = natStrChars uid := by
    rw [takeWhile_append_all hdig]
    simp [List.takeWhile_cons]
  have hdrop : (natStrChars uid ++ '-' :: natStrChars k).dropWhile Char.isDigit
      = '-' :: natStrChars k := by
    rw [dropWhile_append_all hdig]
    simp [List.dropWhile_cons]
  simp only [matchAttAt, htake, hdrop,
    isEmpty_eq_false_of_ne_nil (natStrChars_ne_nil uid), Bool.false_eq_true,
    if_false, takeWhile_all hdigk,
    isEmpty_eq_false_of_ne_nil (natStrChars_ne_nil k)]
  rw [charsToNat_natStrChars, charsToNat_natStrChars]

theorem parse_mkAttachmentId (uid k : Nat) :
    parseAttachmentId (mkAttachmentId uid k) = some (uid, k) := by
  have hdata : (mkAttachmentId uid k).data
      = 'a' :: 't' :: 't' :: '-' :: (natStrChars uid ++ '-' :: natStrChars k) := by
    show ("att-" ++ natStr uid ++ "-" ++ natStr k).data = _
    simp [String.data_append, natStr]
  unfold parseAttachmentId
  rw [hdata, searchAtt, matchAttAt_mk]

/-- Declared metadata of a non-container node of the bodystructure, as the
node-imap `struct` exposes it: `disposition.type`, `params.name`, `type`,
`subtype`, `size`, `encoding`, each possibly missing. -/
structure PartInfo where
  dispositionType : Option String
  paramName : Option String
  partType : Option String
  partSubtype : Option String
  partSize : Option Nat
  encoding : Option String
deriving Repr, DecidableEq

mutual
/-- One element of a node-imap `struct` array: either a part object or a
nested array of elements (`Array.isArray(part)`). -/
inductive MimePart : Type where
  | info (p : PartInfo)
  | group (children : PartForest)
deriving Repr
/-- A node-imap `struct` array (a list of elements). -/
inductive PartForest : Type where
  | nil
  | cons (q : MimePart) (rest : PartForest)
deriving Repr
end

/-- `part.disposition && ["attachment","inline"].includes(part.disposition.type.toLowerCase())`. -/
def isAttachmentDisposed (p : PartInfo) : Bool :=
  match p.dispositionType with
  | none => false
  | some t => lowerAscii t = "attachment" || lowerAscii t = "inline"

/-- The child part id: `parentPartId ? parentPartId + "." + (i+1) : "" + (i+1)`
(call this with the 1-based position). -/
def childPath (parent : String) (i : Nat) : String :=
  if parent = "" then natStr i else parent ++ "." ++ natStr i

/-- `part.type?.toLowerCase()` as it ends up inside the concatenation: JS
renders a missing operand of `+` as the string `undefined`. -/
def optLowerStr : Option String → String
  | none => "undefined"
  | some s => lowerAscii s

/-- `part.type?.toLowerCase() + "/" + part.subtype?.toLowerCase()` (the
`|| "application/octet-stream"` default is unreachable because the
concatenation always contains `/` and so is truthy). -/
def contentTypeOf (p : PartInfo) : String :=
  optLowerStr p.partType ++ "/" ++ optLowerStr p.partSubtype

/-- The listing's resume-likelihood check `/\.(pdf|doc|docx|rtf|txt|odt)$/i`:
case-insensitive extension test. -/
def resumeExt (filename : String) : Bool :=
  endsWithSuf (lowerAscii filename) ".pdf" || endsWithSuf (lowerAscii filename) ".doc" ||
  endsWithSuf (lowerAscii filename) ".docx" || endsWithSuf (lowerAscii filename) ".rtf" ||
  endsWithSuf (lowerAscii filename) ".txt" || endsWithSuf (lowerAscii filename) ".odt"

/-- The attachment entry pushed by listEmails' `traverse`. -/
structure AttachmentDescriptor where
  id : String
  partId : String
  name : String
  contentType : String
  descSize : Nat
  isResume : Bool
  encoding : Option String
deriving Repr, DecidableEq

/-- The descriptor built for the `ordinal`-th attachment-disposed part found
at part path `path` during listEmails' depth-first walk. -/
def mkDescriptor (uid ordinal : Nat) (path : String) (p : PartInfo) : AttachmentDescriptor :=
  let filename :=
    match p.paramName with
    | some n => if n = "" then "unknown-" ++ natStr ordinal else n
    | none => "unknown-" ++ natStr ordinal
  { id := mkAttachmentId uid ordinal
    partId := path
    name := filename
    contentType := contentTypeOf p
    descSize := p.partSize.getD 0
    isResume := resumeExt filename
    encoding := p.encoding }

mutual
/-- listEmails' `traverse` on a single struct element.  The state is the
closure state of the JS function: the running `attachmentIndex` counter and
the `attachments` array. -/
def traversePart (uid : Nat) :
    MimePart → String → Nat × List AttachmentDescriptor → Nat × List AttachmentDescriptor
  | .group cs, cur, st => traverseForest uid cs cur 0 st
  | .info p, cur, st =>
    if isAttachmentDisposed p then
      (st.1 + 1, st.2 ++ [mkDescriptor uid (st.1 + 1) cur p])
    else st
/-- listEmails' `traverse` over a struct array starting at 0-based index `i`. -/
def traverseForest (uid : Nat) :
    PartForest → String → Nat → Nat × List AttachmentDescriptor → Nat × List AttachmentDescriptor
  | .nil, _, _, st => st
  | .cons q rest, parent, i, st =>
    traverseForest uid rest parent (i + 1) (traversePart uid q (childPath parent (i + 1)) st)
end

/-- The attachment list produced for one message by listEmails
(`traverse(attrs.struct)` with fresh counter and empty array). -/
def listEmailAttachments (uid : Nat) (struct : PartForest) : List AttachmentDescriptor :=
  (traverseForest uid struct "" 0 (0, [])).2

mutual
/-- downloadEmailAttachment's `findAttachment` on one struct element.  The
state is the pair of the closure variables `attachmentIndex` and
(`targetPartId`, `targetPart`) (the latter `none` while `attachmentFound`
is false). -/
def findPart (target : Nat) :
    MimePart → String → Nat × Option (String × PartInfo) → Nat × Option (String × PartInfo)
  | .group cs, cur, st => findForest target cs cur 0 st
  | .info p, cur, st =>
    if isAttachmentDisposed p then
      if st.1 + 1 = target then (st.1 + 1, some (cur, p)) else (st.1 + 1, st.2)
    else st
/-- downloadEmailAttachment's `findAttachment` over a struct array. -/
def findForest (target : Nat) :
    PartForest → String → Nat → Nat × Option (String × PartInfo) → Nat × Option (String × PartInfo)
  | .nil, _, _, st => st
  | .cons q rest, parent, i, st =>
    findForest target rest parent (i + 1) (findPart target q (childPath parent (i + 1)) st)
end

/-- The locator's resolution of ordinal `target` against a structure
(`findAttachment(attrs.struct)` with fresh counter). -/
def locateAttachment (target : Nat) (struct : PartForest) : Option (String × PartInfo) :=
  (findForest target struct "" 0 (0, none)).2

mutual
/-- The attachment-disposed leaves of one struct element in depth-first
order, with the part path each walk assigns them (common specification of
both walks, used to relate them). -/
def entriesPart : MimePart → String → List (String × PartInfo)
  | .group cs, cur => entriesForest cs cur 0
  | .info p, cur => if isAttachmentDisposed p then [(cur, p)] else []
/-- The attachment-disposed leaves of a struct array in depth-first order. -/
def entriesForest : PartForest → String → Nat → List (String × PartInfo)
  | .nil, _, _ => []
  | .cons q rest, parent, i =>
    entriesPart q (childPath parent (i + 1)) ++ entriesForest rest parent (i + 1)
end

/-- Descriptors built for consecutive ordinals `n+1, n+2, ...` from a list of
(part path, part) entries. -/
def descsFrom (uid : Nat) : Nat → List (String × PartInfo) → List AttachmentDescriptor
  | _, [] => []
  | n, e :: es => mkDescriptor uid (n + 1) e.1 e.2 :: descsFrom uid (n + 1) es

theorem descsFrom_append (uid n : Nat) (E1 E2 : List (String × PartInfo)) :
    descsFrom uid n (E1 ++ E2) =
      descsFrom uid n E1 ++ descsFrom uid (n + E1.length) E2 := by
  induction E1 generalizing n with
  | nil => simp [descsFrom]
  | cons e es ih =>
    simp only [List.cons_append, descsFrom, List.append_eq, List.length_cons]
    rw [ih (n + 1)]
    have h1 : n + 1 + es.length = n + (es.length + 1) := by omega
    rw [h1]

mutual
theorem traversePart_eq (uid : Nat) (q : MimePart) (cur : String)
    (n : Nat) (acc : List AttachmentDescriptor) :
    traversePart uid q cur (n, acc) =
      (n + (entriesPart q cur).length, acc ++ descsFrom uid n (entriesPart q cur)) := by
  cases q with
  | group cs =>
    rw [traversePart, entriesPart]
    exact traverseForest_eq uid cs cur 0 n acc
  | info p =>
    by_cases h : isAttachmentDisposed p <;>
      simp [traversePart, entriesPart, h, descsFrom]
theorem traverseForest_eq (uid : Nat) (f : PartForest) (parent : String)
    (i n : Nat) (acc : List AttachmentDescriptor) :
    traverseForest uid f parent i (n, acc) =
      (n + (entriesForest f parent i).length,
        acc ++ descsFrom uid n (entriesForest f parent i)) := by
  cases f with
  | nil => simp [traverseForest, entriesForest, descsFrom]
  | cons q rest =>
    rw [traverseForest, traversePart_eq uid q (childPath parent (i + 1)) n acc,
      traverseForest_eq uid rest parent (i + 1)
        (n + (entriesPart q (childPath parent (i + 1))).length)
        (acc ++ descsFrom uid n (entriesPart q (childPath parent (i + 1)))),
      entriesForest]
    rw [descsFrom_append]
    simp [List.append_assoc, Nat.add_assoc]
end

/-- The effect of `findAttachment`'s per-entry step on the found-state:
successive ordinals are compared against `target`, later matches
overwriting earlier state. -/
def lookupOrdinal (target : Nat) :
    Nat → List (String × PartInfo) → Option (String × PartInfo) → Option (String × PartInfo)
  | _, [], r => r
  | n, e :: es, r =>
    lookupOrdinal target (n + 1) es (if n + 1 = target then some e else r)

theorem lookupOrdinal_append (target n : Nat) (E1 E2 : List (String × PartInfo))
    (r : Option (String × PartInfo)) :
    lookupOrdinal target n (E1 ++ E2) r =
      lookupOrdinal target (n + E1.length) E2 (lookupOrdinal target n E1 r) := by
  induction E1 generalizing n r with
  | nil => simp [lookupOrdinal]
  | cons e es ih =>
    simp only [List.cons_append, lookupOrdinal, List.append_eq, List.length_cons]
    rw [ih (n + 1)]
    have h1 : n + 1 + es.length = n + (es.length + 1) := by omega
    rw [h1]

mutual
theorem findPart_eq (target : Nat) (q : MimePart) (cur : String)
    (n : Nat) (r : Option (String × PartInfo)) :
    findPart target q cur (n, r) =
      (n + (entriesPart q cur).length,
        lookupOrdinal target n (entriesPart q cur) r) := by
  cases q with
  | group cs =>
    rw [findPart, entriesPart]
    exact findForest_eq target cs cur 0 n r
  | info p =>
    by_cases h : isAttachmentDisposed p
    · by_cases ht : n + 1 = target <;>
        simp [findPart, entriesPart, h, ht, lookupOrdinal]
    · simp [findPart, entriesPart, h, lookupOrdinal]
theorem findForest_eq (target : Nat) (f : PartForest) (parent : String)
    (i n : Nat) (r : Option (String × PartInfo)) :
    findForest target f parent i (n, r) =
      (n + (entriesForest f parent i).length,
        lookupOrdinal target n (entriesForest f parent i) r) := by
  cases f with
  | nil => simp [findForest, entriesForest, lookupOrdinal]
  | cons q rest =>
    rw [findForest, findPart_eq target q (childPath parent (i + 1)) n r,
      findForest_eq target rest parent (i + 1)
        (n + (entriesPart q (childPath parent (i + 1))).length)
        (lookupOrdinal target n (entriesPart q (childPath parent (i + 1))) r),
      entriesForest]
    rw [lookupOrdinal_append]
    simp [Nat.add_assoc]
end

theorem lookupOrdinal_of_le (target : Nat) :
    ∀ (E : List (String × PartInfo)) (n : Nat) r, target ≤ n →
      lookupOrdinal target n E r = r := by
  intro E
  induction E with
  | nil => intro n r _; rfl
  | cons e es ih =>
    intro n r h
    rw [lookupOrdinal, if_neg (by omega)]
    exact ih (n + 1) r (by omega)

theorem lookupOrdinal_of_gt (target : Nat) :
    ∀ (E : List (String × PartInfo)) (n : Nat) r, n + E.length < target →
      lookupOrdinal target n E r = r := by
  intro E
  induction E with
  | nil => intro n r _; rfl
  | cons e es ih =>
    intro n r h
    simp only [List.length_cons] at h
    rw [lookupOrdinal, if_neg (by omega)]
    exact ih (n + 1) r (by omega)

theorem lookupOrdinal_hit (target : Nat) :
    ∀ (E : List (String × PartInfo)) (n : Nat) r (j : Nat) (hj : j < E.length),
      target = n + j + 1 →
      lookupOrdinal target n E r = some (E.get ⟨j, hj⟩) := by
  intro E
  induction E with
  | nil => intro n r j hj _; simp at hj
  | cons e es ih =>
    intro n r j hj ht
    cases j with
    | zero =>
      rw [lookupOrdinal, if_pos (by omega)]
      rw [lookupOrdinal_of_le target es (n + 1) _ (by omega)]
      rfl
    | succ j =>
      simp only [List.length_cons] at hj
      rw [lookupOrdinal, if_neg (by omega)]
      rw [ih (n + 1) _ j (by omega) (by omega)]
      rfl

theorem mem_descsFrom {uid : Nat} {d : AttachmentDescriptor} :
    ∀ {E : List (String × PartInfo)} {n : Nat}, d ∈ descsFrom uid n E →
      ∃ (j : Nat) (hj : j < E.length),
        d = mkDescriptor uid (n + j + 1) (E.get ⟨j, hj⟩).1 (E.get ⟨j, hj⟩).2 := by
  intro E
  induction E with
  | nil => intro n h; simp [descsFrom] at h
  | cons e es ih =>
    intro n h
    rw [descsFrom] at h
    rcases List.mem_cons.mp h with h | h
    · exact ⟨0, by simp, by simpa using h⟩
    · obtain ⟨j, hj, hd⟩ := ih h
      refine ⟨j + 1, by simpa using Nat.succ_lt_succ hj, ?_⟩
      rw [hd]
      have : n + 1 + j = n + (j + 1) := by omega
      rw [this]
      rfl

/-- Outcome of downloadEmailAttachment up to the resolution of the target
part inside the fetched structure. -/
inductive DownloadOutcome : Type where
  | invalidId
  | notFound
  | found (partId : String) (p : PartInfo)
deriving Repr, DecidableEq

/-- downloadEmailAttachment up to resolution of the target part: parse the
attachment id with `/att-(\d+)-(\d+)/`; the JS guard `if (targetUid)` treats
a parsed uid of 0 like a failed match (both reject with
"Invalid attachment ID format"); otherwise walk the fetched structure with
`findAttachment` and reject "Attachment not found" when no ordinal matches. -/
def resolveDownload (attachmentId : String) (struct : PartForest) : DownloadOutcome :=
  match parseAttachmentId attachmentId with
  | none => .invalidId
  | some (uid, ordinal) =>
    if uid = 0 then .invalidId
    else
      match locateAttachment ordinal struct with
      | none => .notFound
      | some (path, p) => .found path p

/-- The spec's wire format, following its words: the whole id string is
exactly `att-<uid>-<ordinal>` with both groups decimal digit sequences.
Stated for comparison with the code's unanchored regex search. -/
def specWireFormatId (s : String) : Bool :=
  match s.data with
  | 'a' :: 't' :: 't' :: '-' :: rest =>
    let d1 := rest.takeWhile Char.isDigit
    let r1 := rest.dropWhile Char.isDigit
    (!d1.isEmpty) &&
      (match r1 with
       | '-' :: r2 => (!r2.isEmpty) && r2.all Char.isDigit
       | _ => false)
  | _ => false

/-- C1: every attachment descriptor produced by the lister's depth-first walk
round-trips: parsing its composite id recovers the message uid and the
descriptor's ordinal, and the locator's walk over the same structural
envelope resolves that ordinal to exactly the part path and part that
produced the descriptor. -/
theorem c1_list_locate_roundtrip (uid : Nat) (struct : PartForest)
    (d : AttachmentDescriptor) (hd : d ∈ listEmailAttachments uid struct) :
    ∃ (k : Nat) (p : PartInfo),
      parseAttachmentId d.id = some (uid, k) ∧
      locateAttachment k struct = some (d.partId, p) ∧
      d = mkDescriptor uid k d.partId p := by
  have hE : listEmailAttachments uid struct
      = descsFrom uid 0 (entriesForest struct "" 0) := by
    unfold listEmailAttachments
    rw [traverseForest_eq]
    simp
  rw [hE] at hd
  obtain ⟨j, hj, hdj⟩ := mem_descsFrom hd
  have hz : (0 : Nat) + j + 1 = j + 1 := by omega
  rw [hz] at hdj
  refine ⟨j + 1, ((entriesForest struct "" 0).get ⟨j, hj⟩).2, ?_, ?_, ?_⟩
  · rw [hdj]
    exact parse_mkAttachmentId uid (j + 1)
  · unfold locateAttachment
    rw [findForest_eq,
      lookupOrdinal_hit (j + 1) (entriesForest struct "" 0) 0 none j hj (by omega)]
    rw [hdj]
    rfl
  · rw [hdj]
    rfl

/-- A sample structural envelope: a text body part without disposition, and
a nested array containing one attachment-disposed PDF part (part path 2.1). -/
def demoAttachmentInfo : PartInfo :=
  { dispositionType := some "ATTACHMENT"
    paramName := some "cv.pdf"
    partType := some "APPLICATION"
    partSubtype := some "PDF"
    partSize := some 12345
    encoding := some "BASE64" }

/-- The non-attachment body part of the sample envelope. -/
def demoTextInfo : PartInfo :=
  { dispositionType := none
    paramName := none
    partType := some "TEXT"
    partSubtype := some "PLAIN"
    partSize := some 10
    encoding := some "7BIT" }

/-- The sample envelope with exactly one attachment-disposed part. -/
def demoStruct : PartForest :=
  .cons (.info demoTextInfo)
    (.cons (.group (.cons (.info demoAttachmentInfo) .nil)) .nil)

theorem c1_witness :
    ∃ (k : Nat) (p : PartInfo),
      parseAttachmentId (mkDescriptor 42 1 "2.1" demoAttachmentInfo).id = some (42, k) ∧
      locateAttachment k demoStruct
        = some ((mkDescriptor 42 1 "2.1" demoAttachmentInfo).partId, p) ∧
      mkDescriptor 42 1 "2.1" demoAttachmentInfo
        = mkDescriptor 42 k (mkDescriptor 42 1 "2.1" demoAttachmentInfo).partId p :=
  c1_list_locate_roundtrip 42 demoStruct (mkDescriptor 42 1 "2.1" demoAttachmentInfo)
    (by decide)

/-- C7: a well-formed id whose ordinal exceeds the number of
attachment-disposed parts of the structure makes the download reject with
the not-found error (never an out-of-range access: the walk simply leaves
the found-state empty). -/
theorem c7_excess_ordinal_not_found (uid k : Nat) (struct : PartForest)
    (huid : uid ≠ 0) (hk : (entriesForest struct "" 0).length < k) :
    resolveDownload (mkAttachmentId uid k) struct = DownloadOutcome.notFound := by
  have hloc : locateAttachment k struct = none := by
    unfold locateAttachment
    rw [findForest_eq]
    exact lookupOrdinal_of_gt k (entriesForest struct "" 0) 0 none (by omega)
  unfold resolveDownload
  rw [parse_mkAttachmentId]
  simp [huid, hloc]

theorem c7_witness :
    (42 : Nat) ≠ 0 ∧ (entriesForest demoStruct "" 0).length < 2 ∧
    resolveDownload (mkAttachmentId 42 2) demoStruct = DownloadOutcome.notFound :=
  ⟨by decide, by decide,
    c7_excess_ordinal_not_found 42 2 demoStruct (by decide) (by decide)⟩

/-- C8 counterexample: the id parse is an unanchored substring search, so
"xatt-1-2x" — not of the wire format — is accepted and proceeds to the
structure walk (rejecting not-found, not invalid-id); conversely "att-0-1"
is of the wire format but is rejected as invalid because the parsed uid 0 is
falsy in JS. -/
theorem c8_counterexample :
    specWireFormatId "xatt-1-2x" = false ∧
    parseAttachmentId "xatt-1-2x" = some (1, 2) ∧
    resolveDownload "xatt-1-2x" PartForest.nil = DownloadOutcome.notFound ∧
    specWireFormatId "att-0-1" = true ∧
    resolveDownload "att-0-1" PartForest.nil = DownloadOutcome.invalidId := by
  decide

/-- C8 amended: the download rejects with the invalid-id error exactly when
the unanchored regex `att-(\d+)-(\d+)` finds no match in the id string, or
its first captured group parses to 0 (JS falsiness of `targetUid`); any
other string — even one merely containing such a substring — proceeds to
the fetch and structure walk. -/
theorem c8_invalid_id_amended (s : String) (struct : PartForest) :
    resolveDownload s struct = DownloadOutcome.invalidId ↔
      (parseAttachmentId s = none ∨ ∃ k, parseAttachmentId s = some (0, k)) := by
  unfold resolveDownload
  cases h : parseAttachmentId s with
  | none => simp
  | some pr =>
    obtain ⟨u, k⟩ := pr
    by_cases hu : u = 0
    · subst hu
      simp
    · cases hl : locateAttachment k struct with
      | none => simp [hu, hl]
      | some pp =>
        obtain ⟨path, p⟩ := pp
        simp [hu, hl]

/-- The standard base64 alphabet used by Node's `Buffer.toString("base64")`. -/
def b64Alphabet : List Char :=
  "ABCDEFGHIJKLMNOPQRSTUVWXYZabcdefghijklmnopqrstuvwxyz0123456789+/".data

/-- The base64 digit for a 6-bit value. -/
def b64Char (n : Nat) : Char := b64Alphabet.getD n 'A'

/-- Membership in the base64 alphabet (excludes the padding `=`). -/
def isB64Char (c : Char) : Bool := b64Alphabet.contains c

/-- Node's base64 rendering of a byte list: 3-byte groups become 4 digits,
a trailing 1- or 2-byte group is padded with `=`. -/
def base64Chunks : List Nat → List Char
  | [] => []
  | [b1] => [b64Char (b1 / 4), b64Char (b1 % 4 * 16), '=', '=']
  | [b1, b2] =>
    [b64Char (b1 / 4), b64Char (b1 % 4 * 16 + b2 / 16), b64Char (b2 % 16 * 4), '=']
  | b1 :: b2 :: b3 :: rest =>
    b64Char (b1 / 4) :: b64Char (b1 % 4 * 16 + b2 / 16) ::
      b64Char (b2 % 16 * 4 + b3 / 64) :: b64Char (b3 % 64) :: base64Chunks rest

/-- RFC 4648 well-formedness of a base64 text: groups of four alphabet
characters, the final group optionally padded with one or two `=`. -/
def validB64 : List Char → Bool
  | [] => true
  | a :: b :: c :: d :: rest =>
    if rest.isEmpty then
      isB64Char a && isB64Char b &&
        (if d = '=' then (if c = '=' then true else isB64Char c)
         else isB64Char c && isB64Char d)
    else isB64Char a && isB64Char b && isB64Char c && isB64Char d && validB64 rest
  | _ => false

/-- Number of bytes a well-formed base64 text decodes to. -/
def b64DecodedLen : List Char → Nat
  | _ :: _ :: c :: d :: rest =>
    if rest.isEmpty then (if d = '=' then (if c = '=' then 1 else 2) else 3)
    else 3 + b64DecodedLen rest
  | _ => 0

theorem isB64Char_b64Char {n : Nat} (h : n < 64) : isB64Char (b64Char n) = true := by
  have hall : ∀ m, m < 64 → isB64Char (b64Char m) = true := by decide
  exact hall n h

theorem b64Char_ne_pad {n : Nat} (h : n < 64) : (b64Char n = '=') = False := by
  have hall : ∀ m, m < 64 → b64Char m ≠ '=' := by decide
  simp [hall n h]

theorem base64Chunks_eq_nil_iff (bytes : List Nat) :
    base64Chunks bytes = [] ↔ bytes = [] := by
  match bytes with
  | [] => simp [base64Chunks]
  | [b1] => simp [base64Chunks]
  | [b1, b2] => simp [base64Chunks]
  | b1 :: b2 :: b3 :: rest => simp [base64Chunks]

theorem validB64_base64Chunks :
    ∀ bytes : List Nat, (∀ b ∈ bytes, b < 256) →
      validB64 (base64Chunks bytes) = true := by
  intro bytes
  induction bytes using base64Chunks.induct with
  | case1 => intro _; rfl
  | case2 b1 =>
    intro h
    have hb1 : b1 < 256 := h b1 (by simp)
    simp only [base64Chunks, validB64, List.isEmpty_nil, if_true, if_pos rfl]
    rw [isB64Char_b64Char (by omega), isB64Char_b64Char (by omega)]
    rfl
  | case3 b1 b2 =>
    intro h
    have hb1 : b1 < 256 := h b1 (by simp)
    have hb2 : b2 < 256 := h b2 (by simp)
    simp only [base64Chunks, validB64, List.isEmpty_nil, if_true, if_pos rfl,
      b64Char_ne_pad (show b2 % 16 * 4 < 64 by omega), if_false]
    rw [isB64Char_b64Char (by omega), isB64Char_b64Char (by omega),
      isB64Char_b64Char (by omega)]
    rfl
  | case4 b1 b2 b3 rest ih =>
    intro h
    have hb1 : b1 < 256 := h b1 (by simp)
    have hb2 : b2 < 256 := h b2 (by simp)
    have hb3 : b3 < 256 := h b3 (by simp)
    by_cases hr : rest = []
    · subst hr
      simp only [base64Chunks, validB64, List.isEmpty_nil, if_true,
        b64Char_ne_pad (show b3 % 64 < 64 by omega), if_false]
      rw [isB64Char_b64Char (by omega), isB64Char_b64Char (by omega),
        isB64Char_b64Char (by omega), isB64Char_b64Char (by omega)]
      rfl
    · have hne : base64Chunks rest ≠ [] := by
        intro hc
        exact hr ((base64Chunks_eq_nil_iff rest).mp hc)
      simp only [base64Chunks, validB64, isEmpty_eq_false_of_ne_nil hne,
        Bool.false_eq_true, if_false]
      rw [isB64Char_b64Char (by omega), isB64Char_b64Char (by omega),
        isB64Char_b64Char (by omega), isB64Char_b64Char (by omega),
        ih (fun b hb => h b (by simp [hb]))]
      rfl

theorem b64DecodedLen_base64Chunks :
    ∀ bytes : List Nat, b64DecodedLen (base64Chunks bytes) = bytes.length := by
  intro bytes
  induction bytes using base64Chunks.induct with
  | case1 => rfl
  | case2 b1 => rfl
  | case3 b1 b2 =>
    simp only [base64Chunks, b64DecodedLen, List.isEmpty_nil, if_true, if_pos rfl,
      b64Char_ne_pad (show b2 % 16 * 4 < 64 by omega), if_false, List.length_cons,
      List.length_nil]
  | case4 b1 b2 b3 rest ih =>
    by_cases hr : rest = []
    · subst hr
      simp only [base64Chunks, b64DecodedLen, List.isEmpty_nil, if_true,
        b64Char_ne_pad (show b3 % 64 < 64 by omega), if_false, List.length_cons,
        List.length_nil]
    · have hne : base64Chunks rest ≠ [] := by
        intro hc
        exact hr ((base64Chunks_eq_nil_iff rest).mp hc)
      simp only [base64Chunks, b64DecodedLen, isEmpty_eq_false_of_ne_nil hne,
        Bool.false_eq_true, if_false, List.length_cons, ih]
      omega

/-- `content.replace(/[\r\n\s]/g, "")`: strip every whitespace character. -/
def jsStripWs (content : String) : String :=
  String.mk (content.data.filter (fun c => !isJsWs c))

/-- `Buffer.from(content, "binary")`: latin1 bytes, each char's code point
truncated to its low byte. -/
def binaryBytes (content : String) : List Nat :=
  content.data.map (fun c => c.toNat % 256)

/-- `Buffer.from(content)`: UTF-8 bytes of the text. -/
def utf8Bytes (content : String) : List Nat :=
  content.toUTF8.toList.map UInt8.toNat

/-- Encoding normalization of the boundary-scan extraction
(downloadEmailAttachment, method 1, after the Content-Transfer-Encoding
header is read): declared base64 strips whitespace from the segment text;
7bit/8bit re-encode its latin1 bytes to base64; any other declared encoding
base64-encodes the segment text's UTF-8 bytes. -/
def normalizeAttachmentContent (encoding content : String) : String :=
  if encoding = "base64" then jsStripWs content
  else if encoding = "7bit" || encoding = "8bit" then
    String.mk (base64Chunks (binaryBytes content))
  else String.mk (base64Chunks (utf8Bytes content))

/-- The actual byte length of the source segment under its declared
encoding: what an accurate declared size equals. -/
def normalizedByteLen (encoding content : String) : Nat :=
  if encoding = "base64" then b64DecodedLen (jsStripWs content).data
  else if encoding = "7bit" || encoding = "8bit" then (binaryBytes content).length
  else (utf8Bytes content).length

/-- C2 counterexample: a segment whose text is `!!!` declared base64 is, as
the claim describes, only whitespace-stripped — but the result is not a
valid base64 string, refuting "the extractor's normalization yields a valid
base64 string" for the base64-declared branch. -/
theorem c2_counterexample :
    normalizeAttachmentContent "base64" "!!!" = "!!!" ∧
    validB64 (normalizeAttachmentContent "base64" "!!!").data = false := by
  decide

/-- C2 amended: the normalization is exactly as described per declared
encoding, and the output is guaranteed valid base64 of the accurate declared
byte length for the 7bit/8bit and other/unknown branches; for the
base64-declared branch the output is just the whitespace-stripped segment
text, so it is valid base64 (of the accurate declared size) only under the
assumption that this stripped text was already well-formed base64. -/
theorem c2_normalization_amended (encoding content : String)
    (h : encoding = "base64" → validB64 (jsStripWs content).data = true) :
    validB64 (normalizeAttachmentContent encoding content).data = true ∧
    b64DecodedLen (normalizeAttachmentContent encoding content).data
      = normalizedByteLen encoding content ∧
    (encoding = "base64" →
      normalizeAttachmentContent encoding content = jsStripWs content) ∧
    ((encoding = "7bit" ∨ encoding = "8bit") →
      normalizeAttachmentContent encoding content
        = String.mk (base64Chunks (binaryBytes content))) ∧
    (encoding ≠ "base64" → encoding ≠ "7bit" → encoding ≠ "8bit" →
      normalizeAttachmentContent encoding content
        = String.mk (base64Chunks (utf8Bytes content))) := by
  by_cases hb : encoding = "base64"
  · subst hb
    refine ⟨h rfl, ?_, fun _ => rfl, ?_, ?_⟩
    · simp [normalizeAttachmentContent, normalizedByteLen]
    · intro hc; rcases hc with hc | hc <;> simp at hc
    · intro hc; exact absurd rfl hc
  · by_cases h78 : encoding = "7bit" ∨ encoding = "8bit"
    · have hcond : (encoding = "7bit" || encoding = "8bit") = true := by
        rcases h78 with hc | hc <;> simp [hc]
      have hnorm : normalizeAttachmentContent encoding content
          = String.mk (base64Chunks (binaryBytes content)) := by
        simp [normalizeAttachmentContent, hb, hcond]
      have hlen : normalizedByteLen encoding content = (binaryBytes content).length := by
        simp [normalizedByteLen, hb, hcond]
      have hbound : ∀ b ∈ binaryBytes content, b < 256 := by
        intro b hbmem
        obtain ⟨c, _, hc⟩ := List.mem_map.mp hbmem
        omega
      refine ⟨?_, ?_, fun hc => absurd hc hb, fun _ => hnorm, ?_⟩
      · rw [hnorm]
        exact validB64_base64Chunks (binaryBytes content) hbound
      · rw [hnorm, hlen]
        exact b64DecodedLen_base64Chunks (binaryBytes content)
      · intro _ h7 h8
        rcases h78 with hc | hc
        · exact absurd hc h7
        · exact absurd hc h8
    · have h7 : encoding ≠ "7bit" := fun hc => h78 (Or.inl hc)
      have h8 : encoding ≠ "8bit" := fun hc => h78 (Or.inr hc)
      have hcond : (encoding = "7bit" || encoding = "8bit") = false := by
        simp [h7, h8]
      have hnorm : normalizeAttachmentContent encoding content
          = String.mk (base64Chunks (utf8Bytes content)) := by
        simp [normalizeAttachmentContent, hb, hcond]
      have hlen : normalizedByteLen encoding content = (utf8Bytes content).length := by
        simp [normalizedByteLen, hb, hcond]
      have hbound : ∀ b ∈ utf8Bytes content, b < 256 := by
        intro b hbmem
        obtain ⟨u, _, hu⟩ := List.mem_map.mp hbmem
        subst hu
        exact u.val.isLt
      refine ⟨?_, ?_, fun hc => absurd hc hb, ?_, fun _ _ _ => hnorm⟩
      · rw [hnorm]
        exact validB64_base64Chunks (utf8Bytes content) hbound
      · rw [hnorm, hlen]
        exact b64DecodedLen_base64Chunks (utf8Bytes content)
      · intro hc
        rcases hc with hc | hc
        · exact absurd hc h7
        · exact absurd hc h8

theorem c2_witness :
    validB64 (normalizeAttachmentContent "7bit" "Hi!").data = true ∧
    b64DecodedLen (normalizeAttachmentContent "7bit" "Hi!").data
      = normalizedByteLen "7bit" "Hi!" ∧
    ("7bit" = "base64" →
      normalizeAttachmentContent "7bit" "Hi!" = jsStripWs "Hi!") ∧
    (("7bit" = "7bit" ∨ "7bit" = "8bit") →
      normalizeAttachmentContent "7bit" "Hi!"
        = String.mk (base64Chunks (binaryBytes "Hi!"))) ∧
    ("7bit" ≠ "base64" → "7bit" ≠ "7bit" → "7bit" ≠ "8bit" →
      normalizeAttachmentContent "7bit" "Hi!"
        = String.mk (base64Chunks (utf8Bytes "Hi!"))) :=
  c2_normalization_amended "7bit" "Hi!" (by decide)

theorem c8_witness :
    (resolveDownload "not-an-id" demoStruct = DownloadOutcome.invalidId ↔
      (parseAttachmentId "not-an-id" = none ∨
        ∃ k, parseAttachmentId "not-an-id" = some (0, k))) :=
  c8_invalid_id_amended "not-an-id" demoStruct

/-- One entry of the candidate's history log. -/
structure HistoryEntry where
  date : String
  note : String
deriving Repr, DecidableEq

/-- The candidate record shape built by parseCandidateFromEmail and enriched
by processEmails; `none` in an Option field models a key absent from the JS
object (and a field absent from the stored document). -/
structure CandidateData where
  name : String
  email : Option String
  source : String
  importDate : String
  notes : String
  stageId : String
  createdAt : String
  updatedAt : String
  history : List HistoryEntry
  hasResume : Option Bool
  resumeFileName : Option String
  hasResumeAttachment : Option Bool
  skills : Option (List String)
  experience : Option String
  education : Option String
  resumeText : Option String
deriving Repr, DecidableEq

/-- One sender entry of mailparser's `from.value`. -/
structure AddressValue where
  name : Option String
  address : Option String
deriving Repr, DecidableEq

/-- One mailparser attachment (only the fields this pipeline reads). -/
structure EmailAttachment where
  filename : String
deriving Repr, DecidableEq

/-- A mailparser-parsed email as parseCandidateFromEmail consumes it. -/
structure ParsedEmail where
  fromValues : Option (List AddressValue)
  subject : Option String
  attachments : List EmailAttachment
deriving Repr, DecidableEq

/-- JS `x || dflt` on an optional string (undefined and "" are falsy). -/
def jsOrElse (o : Option String) (dflt : String) : String :=
  match o with
  | some s => if s = "" then dflt else s
  | none => dflt

/-- How `${email.subject}` renders inside a template string (undefined
renders as the text `undefined`). -/
def renderSubject : Option String → String
  | none => "undefined"
  | some s => s

/-- The resume-attachment filter of parseCandidateFromEmail:
`filename.toLowerCase()` ends with .pdf/.doc/.docx/.txt. -/
def resumeFileExt (filename : String) : Bool :=
  endsWithSuf (lowerAscii filename) ".pdf" || endsWithSuf (lowerAscii filename) ".doc" ||
  endsWithSuf (lowerAscii filename) ".docx" || endsWithSuf (lowerAscii filename) ".txt"

/-- parseCandidateFromEmail: header-derived identity plus attachment flags.
`now` stands for `new Date().toISOString()` at call time. -/
def parseCandidateFromEmail (now : String) (email : ParsedEmail) : CandidateData :=
  let sender := email.fromValues.bind List.head?
  let base : CandidateData :=
    { name := jsOrElse (sender.bind AddressValue.name) "Unknown Candidate"
      email := sender.bind AddressValue.address
      source := "email_import"
      importDate := now
      notes := "Imported from email with subject: " ++ renderSubject email.subject
      stageId := ""
      createdAt := now
      updatedAt := now
      history := [{ date := now
                    note := "Imported from email with subject: \"" ++
                      renderSubject email.subject ++ "\"" }]
      hasResume := none
      resumeFileName := none
      hasResumeAttachment := none
      skills := none
      experience := none
      education := none
      resumeText := none }
  match email.attachments with
  | [] => base
  | a :: rest =>
    { base with
      hasResume := some true
      resumeFileName := some a.filename
      hasResumeAttachment :=
        if (a :: rest).any (fun att => resumeFileExt att.filename) then some true
        else none }

/-- JS truthiness of `candidateData.email` (undefined and "" are falsy). -/
def emailTruthy : Option String → Bool
  | none => false
  | some s => s ≠ ""

/-- Field-wise Firestore `update` semantics for an optional field: a key
present in the update object overwrites, an absent key leaves the stored
value. -/
def updField {α : Type} (newV oldV : Option α) : Option α :=
  match newV with
  | some v => some v
  | none => oldV

/-- `existingDoc.ref.update({...candidateData, updatedAt})`: every key
present on the import overwrites the stored field (including source,
createdAt and the whole history array); keys absent from the import leave
the stored field unchanged. -/
def mergeUpdate (old cd : CandidateData) (now2 : String) : CandidateData :=
  { name := cd.name
    email := cd.email
    source := cd.source
    importDate := cd.importDate
    notes := cd.notes
    stageId := cd.stageId
    createdAt := cd.createdAt
    updatedAt := now2
    history := cd.history
    hasResume := updField cd.hasResume old.hasResume
    resumeFileName := updField cd.resumeFileName old.resumeFileName
    hasResumeAttachment := updField cd.hasResumeAttachment old.hasResumeAttachment
    skills := updField cd.skills old.skills
    experience := updField cd.experience old.experience
    education := updField cd.education old.education
    resumeText := updField cd.resumeText old.resumeText }

/-- `db.collection("candidates").add({...candidateData, createdAt, updatedAt})`. -/
def stampCreate (cd : CandidateData) (now2 : String) : CandidateData :=
  { cd with createdAt := now2, updatedAt := now2 }

/-- Result of the upsert, as addCandidateFromEmail reports it. -/
inductive UpsertResult : Type where
  | updated (id : Nat)
  | created (id : Nat)
deriving Repr, DecidableEq

/-- The Firestore query `where("email","==",candidateData.email).limit(1)`:
first stored record whose email field equals the value. -/
def findByEmail (store : List (Nat × CandidateData)) (e : Option String) :
    Option (Nat × CandidateData) :=
  store.find? (fun r => r.2.email == e)

/-- addCandidateFromEmail over an explicit store: when the import's email is
truthy and a record with equal email exists, that record is updated in
place; otherwise a new record is appended under a fresh id. -/
def addCandidateFromEmail (store : List (Nat × CandidateData)) (freshId : Nat)
    (now2 : String) (cd : CandidateData) : List (Nat × CandidateData) × UpsertResult :=
  if emailTruthy cd.email then
    match findByEmail store cd.email with
    | some (i, old) =>
      (store.map (fun r => if r.1 = i then (i, mergeUpdate old cd now2) else r),
        UpsertResult.updated i)
    | none => (store ++ [(freshId, stampCreate cd now2)], UpsertResult.created freshId)
  else (store ++ [(freshId, stampCreate cd now2)], UpsertResult.created freshId)

/-- A first import: sender Alice <a@x.com>, no attachments. -/
def demoEmailAlice : ParsedEmail :=
  { fromValues := some [{ name := some "Alice", address := some "a@x.com" }]
    subject := some "Resume for job"
    attachments := [] }

/-- A second import from the same address with a different display name and
a resume attachment. -/
def demoEmailBob : ParsedEmail :=
  { fromValues := some [{ name := some "Bob", address := some "a@x.com" }]
    subject := some "job [XY12] application"
    attachments := [{ filename := "cv.pdf" }] }

/-- C3 counterexample: importing the same sender twice yields one record,
but the update replaces the whole history array with the new import's
single-entry log — after the first import the history length is 1, and
after the second it is still 1, not 2; the history is not incremented. -/
theorem c3_counterexample :
    ((addCandidateFromEmail [] 1 "T1" (parseCandidateFromEmail "T1" demoEmailAlice)).1.map
        (fun r => r.2.history.length)) = [1] ∧
    ((addCandidateFromEmail
          (addCandidateFromEmail [] 1 "T1" (parseCandidateFromEmail "T1" demoEmailAlice)).1
          2 "T2" (parseCandidateFromEmail "T2" demoEmailAlice)).1.map
        (fun r => r.2.history.length)) = [1] ∧
    (1 : Nat) ≠ 1 + 1 := by
  decide

/-- C3 amended: re-importing a candidate with the same (truthy) email
against the store yields exactly one stored record — the second import
updates the existing document instead of creating a second one — but the
stored history log is replaced by the second import's log rather than
being extended. -/
theorem c3_idempotent_amended (cd1 cd2 : CandidateData) (id1 id2 : Nat)
    (t1 t2 : String) (he : emailTruthy cd1.email = true)
    (heq : cd2.email = cd1.email) :
    (addCandidateFromEmail
        (addCandidateFromEmail [] id1 t1 cd1).1 id2 t2 cd2).1
      = [(id1, mergeUpdate (stampCreate cd1 t1) cd2 t2)] ∧
    (addCandidateFromEmail
        (addCandidateFromEmail [] id1 t1 cd1).1 id2 t2 cd2).2
      = UpsertResult.updated id1 ∧
    (mergeUpdate (stampCreate cd1 t1) cd2 t2).history = cd2.history := by
  have h1 : addCandidateFromEmail [] id1 t1 cd1
      = ([(id1, stampCreate cd1 t1)], UpsertResult.created id1) := by
    unfold addCandidateFromEmail
    rw [if_pos he]
    rfl
  have hstamp : (stampCreate cd1 t1).email = cd1.email := rfl
  have he2 : emailTruthy cd2.email = true := by rw [heq]; exact he
  have hfind : findByEmail [(id1, stampCreate cd1 t1)] cd2.email
      = some (id1, stampCreate cd1 t1) := by
    unfold findByEmail
    rw [List.find?_cons_of_pos]
    simp [hstamp, heq]
  constructor
  · rw [h1]
    unfold addCandidateFromEmail
    rw [if_pos he2, hfind]
    simp
  constructor
  · rw [h1]
    unfold addCandidateFromEmail
    rw [if_pos he2, hfind]
  · rfl

theorem c3_witness :
    emailTruthy (parseCandidateFromEmail "T1" demoEmailAlice).email = true ∧
    ((addCandidateFromEmail
        (addCandidateFromEmail [] 1 "T1" (parseCandidateFromEmail "T1" demoEmailAlice)).1
        2 "T2" (parseCandidateFromEmail "T2" demoEmailAlice)).1
      = [(1, mergeUpdate (stampCreate (parseCandidateFromEmail "T1" demoEmailAlice) "T1")
              (parseCandidateFromEmail "T2" demoEmailAlice) "T2")] ∧
     (addCandidateFromEmail
        (addCandidateFromEmail [] 1 "T1" (parseCandidateFromEmail "T1" demoEmailAlice)).1
        2 "T2" (parseCandidateFromEmail "T2" demoEmailAlice)).2
      = UpsertResult.updated 1 ∧
     (mergeUpdate (stampCreate (parseCandidateFromEmail "T1" demoEmailAlice) "T1")
        (parseCandidateFromEmail "T2" demoEmailAlice) "T2").history
      = (parseCandidateFromEmail "T2" demoEmailAlice).history) :=
  ⟨by decide,
    c3_idempotent_amended (parseCandidateFromEmail "T1" demoEmailAlice)
      (parseCandidateFromEmail "T2" demoEmailAlice) 1 2 "T1" "T2"
      (by decide) (by decide)⟩

/-- C4 counterexample: on a dedup collision the import overwrites fields
already present on the existing record — the first import stores name
"Alice", the second import of the same address stores name "Bob", and the
final record's name is "Bob", not the preserved "Alice" (hasResume does
transition from absent to true as the scenario expects). -/
theorem c4_counterexample :
    ((addCandidateFromEmail [] 1 "T1" (parseCandidateFromEmail "T1" demoEmailAlice)).1.map
        (fun r => r.2.name)) = ["Alice"] ∧
    ((addCandidateFromEmail
          (addCandidateFromEmail [] 1 "T1" (parseCandidateFromEmail "T1" demoEmailAlice)).1
          2 "T2" (parseCandidateFromEmail "T2" demoEmailBob)).1.map
        (fun r => (r.2.name, r.2.hasResume))) = [("Bob", some true)] := by
  decide

/-- C4 amended: on a dedup collision the existing document is updated in
place (no second record is created and the update result is reported), and
a field absent from the import is retained from the existing record — but
every field present on the import overwrites the existing value (name,
source, notes, the entire history log, ...); the scenario's hasResume
transition from absent to present does hold. -/
theorem c4_upsert_amended (store : List (Nat × CandidateData)) (i : Nat)
    (old cd : CandidateData) (id2 : Nat) (t2 : String)
    (he : emailTruthy cd.email = true)
    (hfind : findByEmail store cd.email = some (i, old)) :
    (addCandidateFromEmail store id2 t2 cd).2 = UpsertResult.updated i ∧
    (addCandidateFromEmail store id2 t2 cd).1.length = store.length ∧
    (i, mergeUpdate old cd t2) ∈ (addCandidateFromEmail store id2 t2 cd).1 ∧
    (cd.hasResume = none → (mergeUpdate old cd t2).hasResume = old.hasResume) ∧
    (cd.skills = none → (mergeUpdate old cd t2).skills = old.skills) ∧
    (∀ v, cd.hasResume = some v → (mergeUpdate old cd t2).hasResume = some v) ∧
    (mergeUpdate old cd t2).name = cd.name ∧
    (mergeUpdate old cd t2).source = cd.source ∧
    (mergeUpdate old cd t2).history = cd.history := by
  have hadd : addCandidateFromEmail store id2 t2 cd
      = (store.map (fun r => if r.1 = i then (i, mergeUpdate old cd t2) else r),
          UpsertResult.updated i) := by
    unfold addCandidateFromEmail
    rw [if_pos he, hfind]
  have hmem : (i, old) ∈ store := List.mem_of_find?_eq_some hfind
  refine ⟨by rw [hadd], by rw [hadd]; simp, ?_, ?_, ?_, ?_, rfl, rfl, rfl⟩
  · rw [hadd]
    have h2 := List.mem_map_of_mem
      (fun r : Nat × CandidateData =>
        if r.1 = i then (i, mergeUpdate old cd t2) else r) hmem
    simpa using h2
  · intro h0; simp [mergeUpdate, updField, h0]
  · intro h0; simp [mergeUpdate, updField, h0]
  · intro v hv; simp [mergeUpdate, updField, hv]

theorem c4_witness :
    ((addCandidateFromEmail [(1, stampCreate (parseCandidateFromEmail "T1" demoEmailAlice) "T1")]
        2 "T2" (parseCandidateFromEmail "T2" demoEmailBob)).2 = UpsertResult.updated 1 ∧
     (addCandidateFromEmail [(1, stampCreate (parseCandidateFromEmail "T1" demoEmailAlice) "T1")]
        2 "T2" (parseCandidateFromEmail "T2" demoEmailBob)).1.length = 1 ∧
     (1, mergeUpdate (stampCreate (parseCandidateFromEmail "T1" demoEmailAlice) "T1")
          (parseCandidateFromEmail "T2" demoEmailBob) "T2")
        ∈ (addCandidateFromEmail
            [(1, stampCreate (parseCandidateFromEmail "T1" demoEmailAlice) "T1")]
            2 "T2" (parseCandidateFromEmail "T2" demoEmailBob)).1 ∧
     ((parseCandidateFromEmail "T2" demoEmailBob).hasResume = none →
       (mergeUpdate (stampCreate (parseCandidateFromEmail "T1" demoEmailAlice) "T1")
          (parseCandidateFromEmail "T2" demoEmailBob) "T2").hasResume
         = (stampCreate (parseCandidateFromEmail "T1" demoEmailAlice) "T1").hasResume) ∧
     ((parseCandidateFromEmail "T2" demoEmailBob).skills = none →
       (mergeUpdate (stampCreate (parseCandidateFromEmail "T1" demoEmailAlice) "T1")
          (parseCandidateFromEmail "T2" demoEmailBob) "T2").skills
         = (stampCreate (parseCandidateFromEmail "T1" demoEmailAlice) "T1").skills) ∧
     (∀ v, (parseCandidateFromEmail "T2" demoEmailBob).hasResume = some v →
       (mergeUpdate (stampCreate (parseCandidateFromEmail "T1" demoEmailAlice) "T1")
          (parseCandidateFromEmail "T2" demoEmailBob) "T2").hasResume = some v) ∧
     (mergeUpdate (stampCreate (parseCandidateFromEmail "T1" demoEmailAlice) "T1")
        (parseCandidateFromEmail "T2" demoEmailBob) "T2").name
       = (parseCandidateFromEmail "T2" demoEmailBob).name ∧
     (mergeUpdate (stampCreate (parseCandidateFromEmail "T1" demoEmailAlice) "T1")
        (parseCandidateFromEmail "T2" demoEmailBob) "T2").source
       = (parseCandidateFromEmail "T2" demoEmailBob).source ∧
     (mergeUpdate (stampCreate (parseCandidateFromEmail "T1" demoEmailAlice) "T1")
        (parseCandidateFromEmail "T2" demoEmailBob) "T2").history
       = (parseCandidateFromEmail "T2" demoEmailBob).history) :=
  c4_upsert_amended [(1, stampCreate (parseCandidateFromEmail "T1" demoEmailAlice) "T1")]
    1 (stampCreate (parseCandidateFromEmail "T1" demoEmailAlice) "T1")
    (parseCandidateFromEmail "T2" demoEmailBob) 2 "T2" (by decide) (by decide)

/-- C9 counterexample: an email without a usable sender address produces a
candidate record whose email is simply absent — no placeholder is ever
synthesized. -/
theorem c9_counterexample :
    (parseCandidateFromEmail "T"
        { fromValues := none, subject := none, attachments := [] }).email = none := by
  rfl

/-- C9 amended: no placeholder email is synthesized — a record without a
usable (truthy) email keeps its email absent — but the dedup lookup is
skipped entirely for such records, so every no-email import creates a fresh
record and two unrelated no-email imports are never merged into one. -/
theorem c9_no_placeholder_amended (store : List (Nat × CandidateData))
    (freshId : Nat) (t : String) (cd : CandidateData)
    (he : emailTruthy cd.email = false) :
    addCandidateFromEmail store freshId t cd
      = (store ++ [(freshId, stampCreate cd t)], UpsertResult.created freshId) ∧
    (∀ (pe : ParsedEmail), pe.fromValues = none →
      (parseCandidateFromEmail t pe).email = none) := by
  constructor
  · unfold addCandidateFromEmail
    rw [if_neg (by simp [he])]
  · intro pe hpe
    unfold parseCandidateFromEmail
    rw [hpe]
    cases pe.attachments <;> rfl

theorem c9_witness :
    (addCandidateFromEmail [] 5 "T"
        (parseCandidateFromEmail "T" { fromValues := none, subject := none, attachments := [] })
      = ([(5, stampCreate (parseCandidateFromEmail "T"
            { fromValues := none, subject := none, attachments := [] }) "T")],
          UpsertResult.created 5) ∧
     (∀ (pe : ParsedEmail), pe.fromValues = none →
       (parseCandidateFromEmail "T" pe).email = none)) :=
  c9_no_placeholder_amended [] 5 "T"
    (parseCandidateFromEmail "T" { fromValues := none, subject := none, attachments := [] })
    (by decide)

/-- Result of one external extraction-library invocation: the text it
returned, or the message of the error it threw. -/
inductive StratResult : Type where
  | ok (text : String)
  | err (msg : String)
deriving Repr, DecidableEq

/-- JS `String.trim()` (ASCII whitespace on this pipeline's inputs). -/
def jsTrim (s : String) : String :=
  String.mk (((s.data.dropWhile isJsWs).reverse.dropWhile isJsWs).reverse)

/-- The retry trigger of extractTextWithPdfParse: the first error's message
mentions XRef, cross-reference or FormatError. -/
def xrefLike (m : String) : Bool :=
  containsSubstr m "XRef" || containsSubstr m "cross-reference" ||
    containsSubstr m "FormatError"

/-- extractTextWithPdfParse: run pdf-parse with default options; on an
XRef/cross-reference/FormatError failure retry with the lenient options and
accept any non-empty text (throwing "Parsed PDF but no text was extracted"
when the lenient parse returns empty text); any other failure is rethrown.
The two library invocations are explicit inputs. -/
def extractTextWithPdfParse (defaultRes lenientRes : StratResult) : StratResult :=
  match defaultRes with
  | .ok t => .ok t
  | .err m =>
    if xrefLike m then
      match lenientRes with
      | .ok t =>
        if t.length > 0 then .ok t
        else .err "Parsed PDF but no text was extracted"
      | .err m2 => .err m2
    else .err m

/-- One step of extractTextFromPDF's chain: accept a result whose text has
non-whitespace content; a thrown error appends `label: message` to the
collected errors; an empty-text success records nothing. -/
def tryStrat (label : String) (res : StratResult) (errs : List String) :
    Option String × List String :=
  match res with
  | .ok t => (if (jsTrim t).data.isEmpty then none else some t, errs)
  | .err m => (none, errs ++ [label ++ ": " ++ m])

/-- The aggregated failure message of extractTextFromPDF. -/
def aggregatedErr (errs : List String) : String :=
  "Failed to extract text from PDF after trying multiple libraries. Errors: " ++
    String.intercalate "; " errs

/-- extractTextFromPDF: try pdf-parse (with its internal lenient retry),
then pdf2json, then pdfjs-dist, short-circuiting on the first usable text;
when no strategy yields usable text, throw the aggregated error built from
the collected per-strategy thrown messages. -/
def extractTextFromPDF (pp p2 p3 : StratResult) : Except String String :=
  match tryStrat "pdf-parse" pp [] with
  | (some t, _) => Except.ok t
  | (none, e1) =>
    match tryStrat "pdf2json" p2 e1 with
    | (some t, _) => Except.ok t
    | (none, e2) =>
      match tryStrat "pdfjs-dist" p3 e2 with
      | (some t, _) => Except.ok t
      | (none, e3) => Except.error (aggregatedErr e3)

/-- Usability test of a strategy result as the chain applies it:
`text && text.trim().length > 0`. -/
def usableText : StratResult → Bool
  | .ok t => !(jsTrim t).data.isEmpty
  | .err _ => false

/-- The error-list contribution of one strategy: only thrown errors are
recorded; empty-text successes contribute nothing. -/
def errContribution (label : String) : StratResult → List String
  | .ok _ => []
  | .err m => [label ++ ": " ++ m]

theorem tryStrat_of_usable {label : String} {res : StratResult} {errs : List String}
    {t : String} (hr : res = .ok t) (hu : usableText res = true) :
    tryStrat label res errs = (some t, errs) := by
  subst hr
  simp only [usableText, Bool.not_eq_true'] at hu
  simp [tryStrat, hu]

theorem tryStrat_of_unusable {label : String} {res : StratResult} {errs : List String}
    (hu : usableText res = false) :
    tryStrat label res errs = (none, errs ++ errContribution label res) := by
  cases res with
  | ok t =>
    simp only [usableText, Bool.not_eq_false'] at hu
    simp [tryStrat, errContribution, hu]
  | err m => rfl

/-- extractTextFromDOCX: mammoth's raw-text result is returned as-is; a
thrown error is replaced by the fixed message. -/
def extractTextFromDOCX (mammothRes : StratResult) : StratResult :=
  match mammothRes with
  | .ok t => .ok t
  | .err _ => .err "Failed to extract text from DOC/DOCX"

/-- Outcome of the text-extraction branch of POST /parse-attachment. -/
inductive AttachmentExtractOutcome : Type where
  | success (text : String)
  | failure (msg : String)
  | unsupported
deriving Repr, DecidableEq

/-- The text-extraction dispatch of POST /parse-attachment: PDF through the
fallback chain plus an explicit emptiness check; DOC/DOCX through the single
mammoth conversion with its result returned unchecked; TXT read directly,
unchecked; any other extension rejected as unsupported. -/
def parseAttachmentExtract (ext : String) (pp p2 p3 : StratResult)
    (mammothRes : StratResult) (txtContent : String) : AttachmentExtractOutcome :=
  if ext = ".pdf" then
    match extractTextFromPDF pp p2 p3 with
    | .ok t =>
      if (jsTrim t).data.isEmpty then
        .failure "PDF parsed but no text could be extracted. The PDF might be image-based or secured."
      else .success t
    | .error m => .failure m
  else if ext = ".doc" || ext = ".docx" then
    match extractTextFromDOCX mammothRes with
    | .ok t => .success t
    | .err m => .failure m
  else if ext = ".txt" then .success txtContent
  else .unsupported

/-- C5 counterexample: the emptiness check exists only on the PDF branch —
a DOCX whose conversion yields empty text, and an empty TXT file, both come
back as success carrying empty text. -/
theorem c5_counterexample :
    parseAttachmentExtract ".docx" (.err "e") (.err "e") (.err "e") (.ok "") "zz"
      = AttachmentExtractOutcome.success "" ∧
    parseAttachmentExtract ".txt" (.err "e") (.err "e") (.err "e") (.err "e") ""
      = AttachmentExtractOutcome.success "" := by
  decide

/-- C5 amended: the PDF branch never returns success with empty or
whitespace-only text (any such result is converted to failure), but the
DOC/DOCX branch returns the conversion result unchecked and the TXT branch
returns the file content unchecked, so empty-text success is possible for
those types. -/
theorem c5_empty_text_amended (pp p2 p3 mammothRes : StratResult) (txt : String) :
    (∀ t, parseAttachmentExtract ".pdf" pp p2 p3 mammothRes txt
        = AttachmentExtractOutcome.success t → (jsTrim t).data ≠ []) ∧
    (∀ t, mammothRes = .ok t →
      parseAttachmentExtract ".docx" pp p2 p3 mammothRes txt
        = AttachmentExtractOutcome.success t) ∧
    (∀ t, mammothRes = .ok t →
      parseAttachmentExtract ".doc" pp p2 p3 mammothRes txt
        = AttachmentExtractOutcome.success t) ∧
    parseAttachmentExtract ".txt" pp p2 p3 mammothRes txt
      = AttachmentExtractOutcome.success txt := by
  refine ⟨?_, ?_, ?_, rfl⟩
  · intro t hsucc
    unfold parseAttachmentExtract at hsucc
    rw [if_pos rfl] at hsucc
    cases hpdf : extractTextFromPDF pp p2 p3 with
    | ok t0 =>
      rw [hpdf] at hsucc
      by_cases hemp : (jsTrim t0).data.isEmpty
      · simp [hemp] at hsucc
      · simp [hemp] at hsucc
        subst hsucc
        simpa using hemp
    | error m =>
      rw [hpdf] at hsucc
      simp at hsucc
  · intro t hm
    subst hm
    rfl
  · intro t hm
    subst hm
    rfl

theorem c5_witness :
    ((∀ t, parseAttachmentExtract ".pdf" (.ok "hello") (.err "e") (.err "e") (.ok "w") "z"
        = AttachmentExtractOutcome.success t → (jsTrim t).data ≠ []) ∧
     (∀ t, StratResult.ok "w" = .ok t →
       parseAttachmentExtract ".docx" (.ok "hello") (.err "e") (.err "e") (.ok "w") "z"
         = AttachmentExtractOutcome.success t) ∧
     (∀ t, StratResult.ok "w" = .ok t →
       parseAttachmentExtract ".doc" (.ok "hello") (.err "e") (.err "e") (.ok "w") "z"
         = AttachmentExtractOutcome.success t) ∧
     parseAttachmentExtract ".txt" (.ok "hello") (.err "e") (.err "e") (.ok "w") "z"
       = AttachmentExtractOutcome.success "z") :=
  c5_empty_text_amended (.ok "hello") (.err "e") (.err "e") (.ok "w") "z"

/-- C6 counterexample: when every PDF strategy succeeds but yields empty (or
whitespace-only) text, the call does fail with the aggregated error — but
no strategy threw, so the error lists no failure reason at all (three
strategies were attempted, the reason list is empty): the error does not
list "each attempted strategy's failure reason". -/
theorem c6_counterexample :
    extractTextFromPDF (extractTextWithPdfParse (.ok "") (.err "x")) (.ok " ") (.ok "")
      = Except.error
          "Failed to extract text from PDF after trying multiple libraries. Errors: " ∧
    errContribution "pdf-parse" (extractTextWithPdfParse (.ok "") (.err "x")) ++
        errContribution "pdf2json" (StratResult.ok " ") ++
        errContribution "pdfjs-dist" (StratResult.ok "") = [] :=
  ⟨rfl, rfl⟩

/-- C6 amended: the chain tries pdf-parse (retrying internally with lenient
options exactly when the first failure looks like a cross-reference/format
error), then pdf2json, then pdfjs-dist, in that fixed order, short-circuits
on the first strategy whose text has non-whitespace content, and when no
strategy yields usable text it fails with the single aggregated error that
lists the failure reason of each strategy that threw — strategies that
returned empty text are attempted but contribute no reason to the list. -/
theorem c6_pdf_chain_amended (d l p2 p3 : StratResult) :
    (∀ t, extractTextWithPdfParse d l = .ok t → (jsTrim t).data ≠ [] →
      extractTextFromPDF (extractTextWithPdfParse d l) p2 p3 = Except.ok t) ∧
    (usableText (extractTextWithPdfParse d l) = false → ∀ t, p2 = .ok t →
      (jsTrim t).data ≠ [] →
      extractTextFromPDF (extractTextWithPdfParse d l) p2 p3 = Except.ok t) ∧
    (usableText (extractTextWithPdfParse d l) = false → usableText p2 = false →
      ∀ t, p3 = .ok t → (jsTrim t).data ≠ [] →
      extractTextFromPDF (extractTextWithPdfParse d l) p2 p3 = Except.ok t) ∧
    (usableText (extractTextWithPdfParse d l) = false → usableText p2 = false →
      usableText p3 = false →
      extractTextFromPDF (extractTextWithPdfParse d l) p2 p3
        = Except.error (aggregatedErr
            (errContribution "pdf-parse" (extractTextWithPdfParse d l) ++
              errContribution "pdf2json" p2 ++ errContribution "pdfjs-dist" p3))) ∧
    (∀ m, d = .err m → xrefLike m = false → extractTextWithPdfParse d l = .err m) ∧
    (∀ m t, d = .err m → xrefLike m = true → l = .ok t → t.length > 0 →
      extractTextWithPdfParse d l = .ok t) := by
  refine ⟨?_, ?_, ?_, ?_, ?_, ?_⟩
  · intro t hok hne
    have hu : usableText (extractTextWithPdfParse d l) = true := by
      rw [hok]
      simpa [usableText] using hne
    simp [extractTextFromPDF, tryStrat_of_usable hok hu]
  · intro hu1 t hok hne
    have hu2 : usableText p2 = true := by
      rw [hok]
      simpa [usableText] using hne
    subst hok
    simp [extractTextFromPDF, tryStrat_of_unusable hu1,
      tryStrat_of_usable rfl hu2]
  · intro hu1 hu2 t hok hne
    have hu3 : usableText p3 = true := by
      rw [hok]
      simpa [usableText] using hne
    subst hok
    simp [extractTextFromPDF, tryStrat_of_unusable hu1, tryStrat_of_unusable hu2,
      tryStrat_of_usable rfl hu3]
  · intro hu1 hu2 hu3
    simp [extractTextFromPDF, tryStrat_of_unusable hu1, tryStrat_of_unusable hu2,
      tryStrat_of_unusable hu3, aggregatedErr, List.append_assoc]
  · intro m hd hx
    subst hd
    simp [extractTextWithPdfParse, hx]
  · intro m t hd hx hl hlen
    subst hd
    subst hl
    simp [extractTextWithPdfParse, hx, hlen]

theorem c6_witness :
    ((∀ t, extractTextWithPdfParse (.ok "text") (.err "y") = .ok t → (jsTrim t).data ≠ [] →
      extractTextFromPDF (extractTextWithPdfParse (.ok "text") (.err "y")) (.err "a") (.err "b")
        = Except.ok t) ∧
     (usableText (extractTextWithPdfParse (.ok "text") (.err "y")) = false →
      ∀ t, StratResult.err "a" = .ok t → (jsTrim t).data ≠ [] →
      extractTextFromPDF (extractTextWithPdfParse (.ok "text") (.err "y")) (.err "a") (.err "b")
        = Except.ok t) ∧
     (usableText (extractTextWithPdfParse (.ok "text") (.err "y")) = false →
      usableText (StratResult.err "a") = false →
      ∀ t, StratResult.err "b" = .ok t → (jsTrim t).data ≠ [] →
      extractTextFromPDF (extractTextWithPdfParse (.ok "text") (.err "y")) (.err "a") (.err "b")
        = Except.ok t) ∧
     (usableText (extractTextWithPdfParse (.ok "text") (.err "y")) = false →
      usableText (StratResult.err "a") = false →
      usableText (StratResult.err "b") = false →
      extractTextFromPDF (extractTextWithPdfParse (.ok "text") (.err "y")) (.err "a") (.err "b")
        = Except.error (aggregatedErr
            (errContribution "pdf-parse" (extractTextWithPdfParse (.ok "text") (.err "y")) ++
              errContribution "pdf2json" (StratResult.err "a") ++
              errContribution "pdfjs-dist" (StratResult.err "b")))) ∧
     (∀ m, StratResult.ok "text" = .err m → xrefLike m = false →
       extractTextWithPdfParse (.ok "text") (.err "y") = .err m) ∧
     (∀ m t, StratResult.ok "text" = .err m → xrefLike m = true →
       StratResult.err "y" = .ok t → t.length > 0 →
       extractTextWithPdfParse (.ok "text") (.err "y") = .ok t)) :=
  c6_pdf_chain_amended (.ok "text") (.err "y") (.err "a") (.err "b")

/-- isJobRelatedEmail: `!subject` short-circuits to false (undefined and
empty string); otherwise the lowered subject is tested for the job-code
regex `job\s*\[\w+\]` and the keywords job, candidate, resume, cv. -/
def isWordChar (c : Char) : Bool := c.isAlphanum || c == '_'

/-- One attempted match of `job\s*\[\w+\]` at the head of the lowered
subject (the pattern has no uppercase once the subject is lowered). -/
def jobCodeHere : List Char → Bool
  | 'j' :: 'o' :: 'b' :: rest =>
    match rest.dropWhile isJsWs with
    | '[' :: r2 =>
      (!(r2.takeWhile isWordChar).isEmpty) &&
        (match r2.dropWhile isWordChar with
         | ']' :: _ => true
         | _ => false)
    | _ => false
  | _ => false

/-- Unanchored search of `job\s*\[\w+\]` over the lowered subject. -/
def hasJobCode : List Char → Bool
  | [] => false
  | c :: cs => jobCodeHere (c :: cs) || hasJobCode cs

/-- isJobRelatedEmail over the possibly-undefined subject string. -/
def isJobRelatedEmail (subject : Option String) : Bool :=
  match subject with
  | none => false
  | some s =>
    if s = "" then false
    else
      hasJobCode (lowerAscii s).data ||
        containsSubstr (lowerAscii s) "job" ||
        containsSubstr (lowerAscii s) "candidate" ||
        containsSubstr (lowerAscii s) "resume" ||
        containsSubstr (lowerAscii s) "cv"

/-- The subject a listed email carries: `header.subject ? header.subject[0]
: "(No subject)"` (when the From header is missing the body handler returns
early and the subject stays undefined). -/
def subjectOfHeader (hdrSubject : Option String) : String :=
  hdrSubject.getD "(No subject)"

/-- The listing filter decision of listEmails' message end handler:
an email is kept unless an enabled filter rejects it. -/
def emailPassesFilters (jobRelated withAttachments : Bool) (subject : Option String)
    (hasAtts : Bool) : Bool :=
  !(jobRelated && !isJobRelatedEmail subject) && !(withAttachments && !hasAtts)

/-- C10: a message whose subject header is absent or empty is never
job-related — the absent header becomes the literal "(No subject)" which
matches no keyword and no job code, the empty subject is falsy, and the
undefined subject of a message whose From header was missing is falsy — so
listing with the jobRelated filter enabled always excludes it. -/
theorem c10_no_subject_excluded (hdrSubject : Option String)
    (h : hdrSubject = none ∨ hdrSubject = some "") (wa hasAtts : Bool) :
    isJobRelatedEmail (some (subjectOfHeader hdrSubject)) = false ∧
    emailPassesFilters true wa (some (subjectOfHeader hdrSubject)) hasAtts = false ∧
    isJobRelatedEmail none = false ∧
    emailPassesFilters true wa none hasAtts = false := by
  rcases h with h | h <;> subst h
  · refine ⟨by decide, ?_, rfl, ?_⟩
    · unfold emailPassesFilters
      rw [show isJobRelatedEmail (some (subjectOfHeader none)) = false by decide]
      simp
    · unfold emailPassesFilters
      simp [isJobRelatedEmail]
  · refine ⟨by decide, ?_, rfl, ?_⟩
    · unfold emailPassesFilters
      rw [show isJobRelatedEmail (some (subjectOfHeader (some ""))) = false by decide]
      simp
    · unfold emailPassesFilters
      simp [isJobRelatedEmail]

theorem c10_witness :
    (isJobRelatedEmail (some (subjectOfHeader none)) = false ∧
     emailPassesFilters true false (some (subjectOfHeader none)) true = false ∧
     isJobRelatedEmail none = false ∧
     emailPassesFilters true false none true = false) :=
  c10_no_subject_excluded none (Or.inl rfl) false true

end ATS
